import Mathlib

/-!
# Verification of the kubelog-backend permission engine

Shallow embedding of the authorization layer of `jfvilas/kubelog-backend`:

* `src/service/permissions.ts` — namespace gate (`checkNamespaceAccess`),
  rule matcher (`checkPodPermissionRule`), pod-permission evaluator
  (`checkPodAccess`), scope dispatch (`getPodPermissionSet`);
* the rule compiler and registry loader (`loadPodRules`,
  `loadPodPermissions`, `loadNamespacePermissions`, `loadClusters`) from the
  configuration module;
* the per-pod grant decision of `addAccessKeys` in `src/service/router.ts`.

Compiled `RegExp` objects are modelled extensionally by their `test`
function; regex compilation (`new RegExp`) is an abstract parameter
`re : String → Pattern`.  The JavaScript `toLowerCase` on the ASCII identity
refs used by the source is modelled per character by `Char.toLower`.
Mutable loops with `break`/`return` are translated into structural
recursion; the exception flow of the loader is made explicit as a
`Registry × Bool` result (the `Bool` records that an exception was thrown).
-/

namespace Kubelog

/-- JavaScript `String.prototype.toLowerCase` restricted to the basic-latin
range (the only range exercised by identity refs): lower-case every
character. -/
def toLowerStr (s : String) : String := ⟨s.data.map Char.toLower⟩

/-- A compiled regular expression (`RegExp`) modelled extensionally by its
`test : String → Bool` function. -/
abbrev Pattern := String → Bool

/-- `PodPermissionRule` (model/KubelogStaticData): a pair of compiled
pattern lists `{pods, refs}`. -/
structure PodPermissionRule where
  pods : List Pattern
  refs : List Pattern

/-- Namespace permission entry `{namespace, identityRefs}`. -/
structure NamespacePermission where
  «namespace» : String
  identityRefs : List String

/-- `KubelogPodPermissions`: one pod-permission block
`{namespace, allow?, except?, deny?, unless?}`; an absent section is `none`,
distinct from `some []`. -/
structure KubelogPodPermissions where
  «namespace» : String
  allow : Option (List PodPermissionRule) := none
  except : Option (List PodPermissionRule) := none
  deny : Option (List PodPermissionRule) := none
  «unless» : Option (List PodPermissionRule) := none

/-- `KubelogClusterData`: the compiled per-cluster state kept in the
registry (kwirthData, a remote-service banner, carries no permission
information and is omitted). -/
structure KubelogClusterData where
  home : String
  apiKey : String
  title : String
  namespacePermissions : List NamespacePermission
  viewPermissions : List KubelogPodPermissions
  restartPermissions : List KubelogPodPermissions

/-- `KWIRTH_SCOPE` enum (permissions.ts:20-26). -/
inductive KWIRTH_SCOPE where
  | filter
  | view
  | restart
  | api
  | cluster
deriving DecidableEq, Repr

/-- `checkNamespaceAccess` (permissions.ts:33-58).  The source reads
`registry.get(cluster.name)?.namespacePermissions`; the optional value of
that lookup is the first argument (an absent cluster gives `none`, and
`undefined?.find` keeps `rule` undefined, i.e. the gate is open). -/
def checkNamespaceAccess (namespacePermissions : Option (List NamespacePermission))
    (podNamespace userEntityRef : String) (userGroups : List String) : Bool :=
  match namespacePermissions.bind (fun l => l.find? (fun ns => ns.«namespace» == podNamespace)) with
  | some rule =>
    if rule.identityRefs.contains (toLowerStr userEntityRef) then true
    else rule.identityRefs.any (fun identityRef => userGroups.contains identityRef)
  | none => true

/-- Inner loop of `checkPodPermissionRule` (permissions.ts:66-79): walk the
`refs` patterns, stopping at the first that matches the lower-cased user
ref or any user group (taken verbatim). -/
def checkRefsLoop (refs : List Pattern) (userEntityRef : String)
    (userGroups : List String) : Bool :=
  match refs with
  | [] => false
  | refRegex :: rest =>
    if refRegex (toLowerStr userEntityRef) then true
    else if userGroups.any (fun g => refRegex g) then true
    else checkRefsLoop rest userEntityRef userGroups

/-- Outer loop of `checkPodPermissionRule` (permissions.ts:64-84): walk the
`pods` patterns; on a pod-name match run the refs loop; `break` as soon as
`refMatch` is true (when it is false the next pod pattern is tried). -/
def checkPodsLoop (pods : List Pattern) (refs : List Pattern)
    (entityName userEntityRef : String) (userGroups : List String) : Bool :=
  match pods with
  | [] => false
  | podNameRegex :: rest =>
    if podNameRegex entityName then
      if checkRefsLoop refs userEntityRef userGroups then true
      else checkPodsLoop rest refs entityName userEntityRef userGroups
    else checkPodsLoop rest refs entityName userEntityRef userGroups

/-- `checkPodPermissionRule` (permissions.ts:61-86). -/
def checkPodPermissionRule (ppr : PodPermissionRule) (entityName userEntityRef : String)
    (userGroups : List String) : Bool :=
  checkPodsLoop ppr.pods ppr.refs entityName userEntityRef userGroups

/-- `getPodPermissionSet` (permissions.ts:88-96): scopes other than view and
restart have no permission set. -/
def getPodPermissionSet (reqScope : KWIRTH_SCOPE) (cluster : KubelogClusterData) :
    Option (List KubelogPodPermissions) :=
  match reqScope with
  | .view => some cluster.viewPermissions
  | .restart => some cluster.restartPermissions
  | _ => none

/-- The allow loop of `checkPodAccess` (permissions.ts:127-129):
`for (prr of allow) allowMatches = check(prr)` — every rule is evaluated
and the variable keeps only the result of the last one. -/
def lastAllowMatch (rules : List PodPermissionRule) (entityName userEntityRef : String)
    (userGroups : List String) : Bool :=
  rules.foldl (fun _ prr => checkPodPermissionRule prr entityName userEntityRef userGroups) false

/-- The except/deny/unless loops of `checkPodAccess`: first-match
short-circuit (`if (matches) break`). -/
def firstRuleMatch (rules : List PodPermissionRule) (entityName userEntityRef : String)
    (userGroups : List String) : Bool :=
  match rules with
  | [] => false
  | prr :: rest =>
    if checkPodPermissionRule prr entityName userEntityRef userGroups then true
    else firstRuleMatch rest entityName userEntityRef userGroups

/-- Decision of one iteration of the block loop of `checkPodAccess`
(permissions.ts:121-183): `true` exactly when the loop body executes
`return true` for this block. -/
def evalBlock (pp : KubelogPodPermissions) (entityName userEntityRef : String)
    (userGroups : List String) : Bool :=
  match pp.allow with
  | none => true
  | some allowRules =>
    let allowMatches := lastAllowMatch allowRules entityName userEntityRef userGroups
    let exceptMatches :=
      if allowMatches then
        match pp.except with
        | some exceptRules => firstRuleMatch exceptRules entityName userEntityRef userGroups
        | none => false
      else false
    if allowMatches && !exceptMatches then
      match pp.deny with
      | none => true
      | some denyRules =>
        let denyMatches := firstRuleMatch denyRules entityName userEntityRef userGroups
        let unlessMatches :=
          if denyMatches then
            match pp.«unless» with
            | some unlessRules => firstRuleMatch unlessRules entityName userEntityRef userGroups
            | none => false
          else false
        !denyMatches || (denyMatches && unlessMatches)
    else false

/-- The block loop of `checkPodAccess` (permissions.ts:120-186): first
granting block returns `true`, falling off the loop returns `false`. -/
def checkPodBlocks (blocks : List KubelogPodPermissions) (entityName userEntityRef : String)
    (userGroups : List String) : Bool :=
  match blocks with
  | [] => false
  | pp :: rest =>
    if evalBlock pp entityName userEntityRef userGroups then true
    else checkPodBlocks rest entityName userEntityRef userGroups

/-- `checkPodAccess` (permissions.ts:109-187).  `clusterFound` is the
registry lookup `registry.get(reqCluster.name)` succeeding; when it fails
the function warns and returns `false`.  The loop runs over
`podPermissionSet.filter(pp => pp.namespace === reqPod.namespace)`. -/
def checkPodAccess (clusterFound : Bool) (podPermissionSet : List KubelogPodPermissions)
    (reqNamespace entityName userEntityRef : String) (userGroups : List String) : Bool :=
  if !clusterFound then false
  else checkPodBlocks (podPermissionSet.filter (fun pp => pp.«namespace» == reqNamespace))
    entityName userEntityRef userGroups

/-- Raw (uncompiled) pod rule as read from app-config: each of `pods` and
`refs` is an optional string array (`getOptionalStringArray`). -/
structure RawPodRule where
  pods : Option (List String) := none
  refs : Option (List String) := none

/-- One rule of `loadPodRules` (config:46-68): an absent key defaults to
`[".*"]` (in JavaScript an undefined key defaults while an empty
array is truthy and stays empty); every string is compiled
with `new RegExp`, here the abstract `re`. -/
def loadPodRule (re : String → Pattern) (rule : RawPodRule) : PodPermissionRule :=
  { pods := (rule.pods.getD [".*"]).map re
    refs := (rule.refs.getD [".*"]).map re }

/-- `loadPodRules` (config:46-68). -/
def loadPodRules (re : String → Pattern) (rules : List RawPodRule) : List PodPermissionRule :=
  rules.map (loadPodRule re)

/-- Raw pod-permission block for one namespace key. -/
structure RawPodBlock where
  «namespace» : String
  allow : Option (List RawPodRule) := none
  except : Option (List RawPodRule) := none
  deny : Option (List RawPodRule) := none
  «unless» : Option (List RawPodRule) := none

/-- Body of the namespace loop of `loadPodPermissions` (config:80-98): with
an `allow` section the optional sections are compiled (absent stays
undefined); without one a single synthetic rule
`{pods: [RegExp(".*")], refs: [RegExp(".*")]}` becomes the sole allow
rule. -/
def loadPodPermissionsBlock (re : String → Pattern) (ns : RawPodBlock) : KubelogPodPermissions :=
  match ns.allow with
  | some allowRaw =>
    { «namespace» := ns.«namespace»
      allow := some (loadPodRules re allowRaw)
      except := ns.except.map (loadPodRules re)
      deny := ns.deny.map (loadPodRules re)
      «unless» := ns.«unless».map (loadPodRules re) }
  | none =>
    { «namespace» := ns.«namespace»
      allow := some [{ pods := [re (".*")], refs := [re (".*")] }]
      except := none
      deny := none
      «unless» := none }

/-- `loadPodPermissions` (config:76-104): `none` models the cluster not
having the config key at all (`cluster.has(configKey)` false — no blocks,
everyone allowed). -/
def loadPodPermissions (re : String → Pattern) (cfg : Option (List RawPodBlock)) :
    List KubelogPodPermissions :=
  match cfg with
  | some namespaceList => namespaceList.map (loadPodPermissionsBlock re)
  | none => []

/-- Raw namespace permission entry `{namespaceName: [identityRef, ...]}`. -/
structure RawNamespacePermission where
  «namespace» : String
  identityRefs : List String

/-- `loadNamespacePermissions` (config:26-44): identity refs are
lower-cased at load; an absent config key leaves the list empty. -/
def loadNamespacePermissions (cfg : Option (List RawNamespacePermission)) :
    List NamespacePermission :=
  match cfg with
  | some permNamespaces =>
    permNamespaces.map (fun ns =>
      { «namespace» := ns.«namespace», identityRefs := ns.identityRefs.map toLowerStr })
  | none => []

/-- Raw cluster subtree.  `name := none` models a cluster entry without a
`name` key: `getString` of the name throws on it.  The deprecated and
new key spellings for home/apiKey are both kept. -/
structure RawCluster where
  name : Option String := none
  kwirthHome : Option String := none
  kubelogKwirthHome : Option String := none
  kwirthApiKey : Option String := none
  kubelogKwirthApiKey : Option String := none
  title : Option String := none
  namespacePermissionsCfg : Option (List RawNamespacePermission) := none
  podViewPermissionsCfg : Option (List RawPodBlock) := none
  podRestartPermissionsCfg : Option (List RawPodBlock) := none

/-- One cluster-locator method; `clusters := none` models the subtree
lacking the `clusters` array (`getConfigArray` throws). -/
structure RawMethod where
  clusters : Option (List RawCluster) := none

/-- Root config; `clusterLocatorMethods := none` models a config without
`kubernetes.clusterLocatorMethods` (`getConfigArray` throws). -/
structure RawRootConfig where
  clusterLocatorMethods : Option (List RawMethod) := none

/-- The registry `KubelogStaticData.clusterKubelogData`, a `Map` keyed by
cluster name (insertion order preserved, `set` replaces in place). -/
abbrev Registry := List (String × KubelogClusterData)

/-- JavaScript `Map.set`: replace the existing entry in place, else append. -/
def setEntry (reg : Registry) (key : String) (val : KubelogClusterData) : Registry :=
  if reg.any (fun e => e.1 == key) then
    reg.map (fun e => if e.1 == key then (key, val) else e)
  else reg ++ [(key, val)]

/-- JavaScript `Map.get`. -/
def lookupEntry (reg : Registry) (key : String) : Option KubelogClusterData :=
  (reg.find? (fun e => e.1 == key)).map Prod.snd

/-- The cluster loop of `loadClusters` (config:110-143), with the thrown
exception made explicit: the second component is `true` when the loop
aborts with an exception, and the first component is the registry state at
that moment.  A cluster with no `name` key makes the name lookup
throw; a cluster lacking home or apiKey keys is skipped with a warning. -/
def loadClustersList (re : String → Pattern) (clusters : List RawCluster)
    (reg : Registry) : Registry × Bool :=
  match clusters with
  | [] => (reg, false)
  | cluster :: rest =>
    match cluster.name with
    | none => (reg, true)
    | some clName =>
      if (cluster.kwirthHome.isSome || cluster.kubelogKwirthHome.isSome)
          && (cluster.kwirthApiKey.isSome || cluster.kubelogKwirthApiKey.isSome) then
        let home := (cluster.kwirthHome.orElse (fun _ => cluster.kubelogKwirthHome)).getD ("")
        let apiKey := (cluster.kwirthApiKey.orElse (fun _ => cluster.kubelogKwirthApiKey)).getD ("")
        let title := cluster.title.getD ("No name")
        let kdata : KubelogClusterData :=
          { home := home
            apiKey := apiKey
            title := title
            namespacePermissions := loadNamespacePermissions cluster.namespacePermissionsCfg
            viewPermissions := loadPodPermissions re cluster.podViewPermissionsCfg
            restartPermissions := loadPodPermissions re cluster.podRestartPermissionsCfg }
        loadClustersList re rest (setEntry reg clName kdata)
      else
        loadClustersList re rest reg

/-- The method loop of `loadClusters` (config:106-143). -/
def loadClustersMethods (re : String → Pattern) (methods : List RawMethod)
    (reg : Registry) : Registry × Bool :=
  match methods with
  | [] => (reg, false)
  | method :: rest =>
    match method.clusters with
    | none => (reg, true)
    | some clusters =>
      match loadClustersList re clusters reg with
      | (reg2, true) => (reg2, true)
      | (reg2, false) => loadClustersMethods re rest reg2

/-- `loadClusters` (config:102-145).  Its first statement is
`KubelogStaticData.clusterKubelogData.clear()`; only then is the root
locator section read (throwing when absent) and the registry repopulated
cluster by cluster. -/
def loadClusters (re : String → Pattern) (cfg : RawRootConfig) (_reg : Registry) :
    Registry × Bool :=
  match cfg.clusterLocatorMethods with
  | none => ([], true)
  | some methods => loadClustersMethods re methods []

/-- The config-change handler installed by `createRouter` (router.ts:68-78):
it calls `loadClusters` and catches any error, only logging it — the
registry stays exactly as `loadClusters` left it. -/
def reloadOnChange (re : String → Pattern) (cfg : RawRootConfig) (reg : Registry) : Registry :=
  (loadClusters re cfg reg).1

/-- The per-pod grant decision inside `addAccessKeys` (router.ts:192-225)
for a pod of a cluster registered with data `clusterData`: `true` exactly
when `setAccessKey` is invoked for the pod.  The namespace gate runs
first; then, when the scope has a permission set, a pod namespace that no
block mentions is granted directly, and otherwise `checkPodAccess`
decides.  (With an unregistered cluster the source dereferences
`undefined` before this decision; that crash path is outside this
model.) -/
def addAccessKeyDecision (clusterData : KubelogClusterData) (reqScope : KWIRTH_SCOPE)
    (podNamespace entityName userEntityRef : String) (userGroups : List String) : Bool :=
  let allowedToNamespace :=
    checkNamespaceAccess (some clusterData.namespacePermissions) podNamespace userEntityRef userGroups
  if allowedToNamespace then
    match getPodPermissionSet reqScope clusterData with
    | none => false
    | some podPermissionSet =>
      if podPermissionSet.any (fun pp => pp.«namespace» == podNamespace) then
        checkPodAccess true podPermissionSet podNamespace entityName userEntityRef userGroups
      else true
  else false

/-! ## Concrete instances (used in witnesses and counterexamples) -/

/-- Pattern matching every input: the behaviour of the `test` of `RegExp(".*")`. -/
def matchAll : Pattern := fun _ => true

/-- Pattern matching no input. -/
def matchNone : Pattern := fun _ => false

/-- Pattern matching exactly the canonical admin group ref. -/
def matchAdminGroup : Pattern := fun s => s == "group:default/admin"

/-- Rule whose single pod and ref pattern match everything. -/
def matchAllRule : PodPermissionRule := { pods := [matchAll], refs := [matchAll] }

/-- Rule whose single pod and ref pattern match nothing. -/
def matchNoneRule : PodPermissionRule := { pods := [matchNone], refs := [matchNone] }

/-- Rule matching any pod for exactly the admin group ref. -/
def adminGroupRule : PodPermissionRule := { pods := [matchAll], refs := [matchAdminGroup] }

/-- Regex compiler for concrete instances: every compiled pattern matches
everything. -/
def reAll : String → Pattern := fun _ => matchAll

/-- A concrete compiled cluster with no restrictions. -/
def oldClusterData : KubelogClusterData :=
  { home := "http://old", apiKey := "k", title := "t"
    namespacePermissions := [], viewPermissions := [], restartPermissions := [] }

/-- A registry holding one cluster named `old`. -/
def regOld : Registry := [("old", oldClusterData)]

/-- A well-formed raw cluster named `new`. -/
def rawClusterNew : RawCluster :=
  { name := some ("new"), kwirthHome := some ("http://new"), kwirthApiKey := some ("k2") }

/-- A raw cluster entry without a `name` key: the name lookup
throws on it. -/
def rawClusterBad : RawCluster := { name := none }

/-- A root config whose second cluster entry is malformed. -/
def cfgBad : RawRootConfig :=
  { clusterLocatorMethods := some [{ clusters := some [rawClusterNew, rawClusterBad] }] }

/-! ## Helper lemmas -/

/-- The refs loop is the first-match search over the refs patterns. -/
theorem checkRefsLoop_eq_any (refs : List Pattern) (u : String) (gs : List String) :
    checkRefsLoop refs u gs
      = refs.any (fun r => r (toLowerStr u) || gs.any (fun g => r g)) := by
  induction refs with
  | nil => rfl
  | cons r rest ih =>
    cases h1 : r (toLowerStr u) <;> cases h2 : gs.any (fun g => r g) <;>
      simp [checkRefsLoop, h1, h2, ih]

/-- The pods loop factors into a pod-name search and the refs search. -/
theorem checkPodsLoop_eq (pods refs : List Pattern) (ent u : String) (gs : List String) :
    checkPodsLoop pods refs ent u gs
      = ((pods.any (fun p => p ent)) && checkRefsLoop refs u gs) := by
  induction pods with
  | nil => rfl
  | cons p rest ih =>
    cases hp : p ent <;> cases hr : checkRefsLoop refs u gs <;>
      simp [checkPodsLoop, hp, hr, ih]

/-- Closed form of the rule matcher. -/
theorem checkPodPermissionRule_eq (ppr : PodPermissionRule) (ent u : String)
    (gs : List String) :
    checkPodPermissionRule ppr ent u gs
      = ((ppr.pods.any (fun p => p ent))
          && ppr.refs.any (fun r => r (toLowerStr u) || gs.any (fun g => r g))) := by
  rw [checkPodPermissionRule, checkPodsLoop_eq, checkRefsLoop_eq_any]

/-- The first-match loops compute `List.any`. -/
theorem firstRuleMatch_eq_any (rules : List PodPermissionRule) (ent u : String)
    (gs : List String) :
    firstRuleMatch rules ent u gs
      = rules.any (fun prr => checkPodPermissionRule prr ent u gs) := by
  induction rules with
  | nil => rfl
  | cons prr rest ih =>
    cases h : checkPodPermissionRule prr ent u gs <;> simp [firstRuleMatch, h, ih]

/-- The first-match loop finds no match iff no rule matches. -/
theorem firstRuleMatch_false_iff (rules : List PodPermissionRule) (ent u : String)
    (gs : List String) :
    firstRuleMatch rules ent u gs = false ↔
      ∀ r ∈ rules, checkPodPermissionRule r ent u gs = false := by
  rw [firstRuleMatch_eq_any]
  simp

/-- The first-match loop finds a match iff some rule matches. -/
theorem firstRuleMatch_true_iff (rules : List PodPermissionRule) (ent u : String)
    (gs : List String) :
    firstRuleMatch rules ent u gs = true ↔
      ∃ r ∈ rules, checkPodPermissionRule r ent u gs = true := by
  rw [firstRuleMatch_eq_any]
  simp

/-- The block loop computes `List.any` of the per-block decision. -/
theorem checkPodBlocks_eq_any (blocks : List KubelogPodPermissions) (ent u : String)
    (gs : List String) :
    checkPodBlocks blocks ent u gs = blocks.any (fun pp => evalBlock pp ent u gs) := by
  induction blocks with
  | nil => rfl
  | cons pp rest ih =>
    cases h : evalBlock pp ent u gs <;> simp [checkPodBlocks, h, ih]

/-- A fold that ignores its accumulator keeps the value of the last element. -/
theorem foldl_keep_last {α : Type} (c : α → Bool) (rules : List α) (init : Bool) :
    rules.foldl (fun _ r => c r) init
      = (match rules.getLast? with
         | none => init
         | some r => c r) := by
  induction rules generalizing init with
  | nil => rfl
  | cons x xs ih =>
    rw [List.foldl_cons, ih (c x)]
    cases xs with
    | nil => rfl
    | cons y ys =>
      rw [List.getLast?_cons_cons]
      cases hgl : (y :: ys).getLast? with
      | none => simp at hgl
      | some r => simp only [hgl]

/-- `Char.toNat` of `Char.ofNat n` is `n` for a valid codepoint. -/
theorem toNat_ofNat_valid (n : Nat) (h : n.isValidChar) : (Char.ofNat n).toNat = n := by
  simp [Char.ofNat, dif_pos h, Char.ofNatAux, Char.toNat, UInt32.toNat]

/-- `Char.toLower` never produces an ASCII uppercase letter. -/
theorem char_toLower_not_upper (c : Char) :
    ¬(65 ≤ (Char.toLower c).toNat ∧ (Char.toLower c).toNat ≤ 90) := by
  unfold Char.toLower
  dsimp only
  by_cases h : c.toNat ≥ 65 ∧ c.toNat ≤ 90
  · have hv : (c.toNat + 32).isValidChar := Or.inl (by omega)
    rw [if_pos h, toNat_ofNat_valid _ hv]
    omega
  · rw [if_neg h]
    exact h

/-- A string with an ASCII uppercase character is never the image of
`toLowerStr`. -/
theorem upper_ne_toLowerStr (g : String) (c : Char) (hc : c ∈ g.data)
    (h65 : 65 ≤ c.toNat) (h90 : c.toNat ≤ 90) (s : String) : g ≠ toLowerStr s := by
  intro heq
  have hdata : g.data = s.data.map Char.toLower := by
    rw [heq]; rfl
  rw [hdata] at hc
  obtain ⟨c', _, hc'⟩ := List.mem_map.mp hc
  exact char_toLower_not_upper c' (by rw [hc']; exact ⟨h65, h90⟩)

/-! ## Claims -/

/-- Claim C5: a compiled rule `{pods, refs}` matches a
(podName, userRef, userGroups) triple iff at least one `pods` pattern
matches the pod name AND (at least one `refs` pattern matches the
lower-cased user ref, OR at least one `refs` pattern matches some entry of
the user groups); a rule whose `pods` or `refs` list is empty matches no
triple. -/
theorem rule_match_iff (ppr : PodPermissionRule) (ent userRef : String) (gs : List String) :
    (checkPodPermissionRule ppr ent userRef gs = true ↔
      (∃ p ∈ ppr.pods, p ent = true)
        ∧ (∃ r ∈ ppr.refs, r (toLowerStr userRef) = true ∨ ∃ g ∈ gs, r g = true))
    ∧ (ppr.pods = [] → checkPodPermissionRule ppr ent userRef gs = false)
    ∧ (ppr.refs = [] → checkPodPermissionRule ppr ent userRef gs = false) := by
  refine ⟨?_, ?_, ?_⟩
  · rw [checkPodPermissionRule_eq]
    simp [List.any_eq_true]
  · intro h
    rw [checkPodPermissionRule_eq, h]
    simp
  · intro h
    rw [checkPodPermissionRule_eq, h]
    simp

/-- Witness for C5: a rule with empty pods (resp. refs) matches nothing at a
concrete input. -/
theorem rule_match_iff_witness :
    checkPodPermissionRule { pods := [], refs := [fun _ => true] } ("p") ("u") [] = false
    ∧ checkPodPermissionRule { pods := [fun _ => true], refs := [] } ("p") ("u") [] = false :=
  ⟨(rule_match_iff _ _ _ _).2.1 rfl, (rule_match_iff _ _ _ _).2.2 rfl⟩

/-- Claim C6: the namespace gate is open when no entry names the pod
namespace; with an entry it passes iff the lower-cased user ref or one of
the user groups is literally a member of the identity refs of the entry; an
entry with empty identity refs admits nobody. -/
theorem namespace_gate_iff (perms : List NamespacePermission) (ns userRef : String)
    (gs : List String) :
    ((∀ p ∈ perms, p.«namespace» ≠ ns) →
        checkNamespaceAccess (some perms) ns userRef gs = true)
    ∧ (∀ rule, perms.find? (fun p => p.«namespace» == ns) = some rule →
        ((checkNamespaceAccess (some perms) ns userRef gs = true ↔
            toLowerStr userRef ∈ rule.identityRefs ∨ ∃ g ∈ gs, g ∈ rule.identityRefs)
          ∧ (rule.identityRefs = [] →
              checkNamespaceAccess (some perms) ns userRef gs = false))) := by
  constructor
  · intro h
    have hfind : perms.find? (fun p => p.«namespace» == ns) = none := by
      apply List.find?_eq_none.mpr
      intro x hx
      simpa using h x hx
    simp [checkNamespaceAccess, hfind]
  · intro rule hfind
    constructor
    · cases hct : rule.identityRefs.contains (toLowerStr userRef) with
      | true =>
        simp only [checkNamespaceAccess, Option.some_bind, hfind, hct, if_true]
        simp only [true_iff]
        left
        simpa using hct
      | false =>
        simp only [checkNamespaceAccess, Option.some_bind, hfind, hct, if_false]
        have hnm : ¬ toLowerStr userRef ∈ rule.identityRefs := by
          intro hmem
          have : rule.identityRefs.contains (toLowerStr userRef) = true := by simpa using hmem
          rw [this] at hct
          cases hct
        rw [if_neg (by simp), List.any_eq_true]
        constructor
        · rintro ⟨ir, hir, hig⟩
          exact Or.inr ⟨ir, by simpa using hig, hir⟩
        · rintro (h | ⟨g, hg, hgr⟩)
          · exact absurd h hnm
          · exact ⟨g, hgr, by simpa using hg⟩
    · intro h0
      simp [checkNamespaceAccess, hfind, h0]

/-- Witness for C6: with an entry `{ns, []}` for the namespace, a concrete
user with a concrete group is rejected. -/
theorem namespace_gate_iff_witness :
    checkNamespaceAccess
      (some [{ «namespace» := "ns", identityRefs := [] }]) ("ns") ("user:default/a")
      ["group:default/b"] = false :=
  ((namespace_gate_iff [{ «namespace» := "ns", identityRefs := [] }]
      ("ns") ("user:default/a") ["group:default/b"]).2
    { «namespace» := "ns", identityRefs := [] } (by rfl)).2 rfl

/-- Claim C4: `checkPodAccess` iterates exactly the blocks whose namespace
equals the target, in list order, granting at the first block that grants
and returning false when none does (in particular when no block matches
the namespace). -/
theorem pod_access_filter_any (ps : List KubelogPodPermissions) (ns ent userRef : String)
    (gs : List String) :
    (checkPodAccess true ps ns ent userRef gs
        = (ps.filter (fun pp => pp.«namespace» == ns)).any (fun pp => evalBlock pp ent userRef gs))
    ∧ (∀ pp rest, checkPodBlocks (pp :: rest) ent userRef gs
        = if evalBlock pp ent userRef gs then true else checkPodBlocks rest ent userRef gs)
    ∧ ((∀ pp ∈ ps, pp.«namespace» ≠ ns) → checkPodAccess true ps ns ent userRef gs = false) := by
  refine ⟨?_, fun pp rest => rfl, ?_⟩
  · simp [checkPodAccess, checkPodBlocks_eq_any]
  · intro h
    have hfil : ps.filter (fun pp => pp.«namespace» == ns) = [] := by
      apply List.filter_eq_nil_iff.mpr
      intro pp hpp
      simpa using h pp hpp
    simp [checkPodAccess, hfil, checkPodBlocks]

/-- Witness for C4: with no block for the namespace the result is false at a
concrete input. -/
theorem pod_access_filter_any_witness :
    checkPodAccess true [{ «namespace» := "other" }] ("ns") ("p") ("u") [] = false :=
  (pod_access_filter_any [{ «namespace» := "other" }] ("ns") ("p") ("u") []).2.2
    (by intro pp hpp; simp at hpp; simp [hpp])

/-- Claim C3: a block with no `allow` section whose namespace equals the
target makes `checkPodAccess` return true, whatever the user, pod name and
the except/deny/unless content of any block. -/
theorem no_allow_block_grants (ps : List KubelogPodPermissions) (pp : KubelogPodPermissions)
    (ns ent userRef : String) (gs : List String)
    (hmem : pp ∈ ps) (hns : pp.«namespace» = ns) (hallow : pp.allow = none) :
    checkPodAccess true ps ns ent userRef gs = true := by
  have h1 : checkPodAccess true ps ns ent userRef gs
      = (ps.filter (fun pp => pp.«namespace» == ns)).any (fun pp => evalBlock pp ent userRef gs) := by
    simp [checkPodAccess, checkPodBlocks_eq_any]
  rw [h1]
  apply List.any_eq_true.mpr
  refine ⟨pp, List.mem_filter.mpr ⟨hmem, by simp [hns]⟩, ?_⟩
  simp [evalBlock, hallow]

/-- Witness for C3: a no-allow block for the namespace grants even with a
deny-everything section and a later restrictive block. -/
theorem no_allow_block_grants_witness :
    checkPodAccess true
      [{ «namespace» := "ns", deny := some [{ pods := [fun _ => true], refs := [fun _ => true] }] },
       { «namespace» := "ns", allow := some [] }]
      ("ns") ("p") ("user:default/a") ["group:default/b"] = true :=
  no_allow_block_grants _
    { «namespace» := "ns", deny := some [{ pods := [fun _ => true], refs := [fun _ => true] }] }
    ("ns") ("p") ("user:default/a") ["group:default/b"]
    (by simp) rfl rfl

/-- Claim C1: for a block with an allow section, the block grants access iff
the allow result is true, no except rule matches (first-match
short-circuit), and either deny is absent, or no deny rule matches, or
some deny rule matches and some unless rule also matches; and a granting
block whose namespace equals the target makes `checkPodAccess` return
true. -/
theorem allow_block_grant_iff (pp : KubelogPodPermissions)
    (allowRules : List PodPermissionRule) (ent userRef : String) (gs : List String)
    (h : pp.allow = some allowRules) :
    (evalBlock pp ent userRef gs = true ↔
      (lastAllowMatch allowRules ent userRef gs = true
        ∧ (∀ exceptRules, pp.except = some exceptRules →
            ∀ r ∈ exceptRules, checkPodPermissionRule r ent userRef gs = false)
        ∧ (pp.deny = none
            ∨ (∃ denyRules, pp.deny = some denyRules
                ∧ ∀ r ∈ denyRules, checkPodPermissionRule r ent userRef gs = false)
            ∨ (∃ denyRules, pp.deny = some denyRules
                ∧ (∃ r ∈ denyRules, checkPodPermissionRule r ent userRef gs = true)
                ∧ (∃ unlessRules, pp.«unless» = some unlessRules
                    ∧ ∃ r ∈ unlessRules, checkPodPermissionRule r ent userRef gs = true)))))
    ∧ (∀ ps ns, pp ∈ ps → pp.«namespace» = ns → evalBlock pp ent userRef gs = true →
        checkPodAccess true ps ns ent userRef gs = true) := by
  constructor
  · rcases hE : pp.except with _ | er <;> rcases hD : pp.deny with _ | dr <;>
      rcases hU : pp.«unless» with _ | ur <;>
      cases hA : lastAllowMatch allowRules ent userRef gs <;>
      cases hEm : pp.except.elim false (fun er => firstRuleMatch er ent userRef gs) <;>
      cases hDm : pp.deny.elim false (fun dr => firstRuleMatch dr ent userRef gs) <;>
      cases hUm : pp.«unless».elim false (fun ur => firstRuleMatch ur ent userRef gs) <;>
      simp only [hE, hD, hU, Option.elim_none, Option.elim_some] at hEm hDm hUm <;>
      first
      | exact absurd hEm (by decide)
      | exact absurd hDm (by decide)
      | exact absurd hUm (by decide)
      | simp [evalBlock, h, hE, hD, hU, hA, hEm, hDm, hUm,
          ← firstRuleMatch_false_iff, ← firstRuleMatch_true_iff]
  · intro ps ns hmem hns hgrant
    have h1 : checkPodAccess true ps ns ent userRef gs
        = (ps.filter (fun pp => pp.«namespace» == ns)).any
            (fun pp => evalBlock pp ent userRef gs) := by
      simp [checkPodAccess, checkPodBlocks_eq_any]
    rw [h1]
    exact List.any_eq_true.mpr ⟨pp, List.mem_filter.mpr ⟨hmem, by simp [hns]⟩, hgrant⟩

/-- Witness for C1: a block whose allow section matches everything and with
no except/deny grants at a concrete input. -/
theorem allow_block_grant_iff_witness :
    evalBlock { «namespace» := "ns", allow := some [matchAllRule] } ("p") ("u") [] = true :=
  ((allow_block_grant_iff { «namespace» := "ns", allow := some [matchAllRule] }
      [matchAllRule] ("p") ("u") [] rfl).1).mpr
    (by refine ⟨by decide, ?_, Or.inl rfl⟩
        intro er h
        cases h)

/-- Claim C2: in the allow loop every rule is evaluated without
short-circuit and `allowMatches` is exactly the match result of the last
rule; concretely, a block whose first allow rule matches the input but
whose final allow rule does not match grants nothing. -/
theorem last_allow_rule_wins :
    (∀ (rules : List PodPermissionRule) (ent userRef : String) (gs : List String)
        (h : rules ≠ []),
      lastAllowMatch rules ent userRef gs
        = checkPodPermissionRule (rules.getLast h) ent userRef gs)
    ∧ (checkPodPermissionRule matchAllRule ("pod-a") ("user:default/a") [] = true
        ∧ evalBlock { «namespace» := "ns", allow := some [matchAllRule, matchNoneRule] }
            ("pod-a") ("user:default/a") [] = false) := by
  constructor
  · intro rules ent userRef gs h
    rw [lastAllowMatch, foldl_keep_last, List.getLast?_eq_getLast rules h]
  · exact ⟨by decide, by decide⟩

/-- Witness for C2: the last-rule characterisation applied to a concrete
singleton rule list. -/
theorem last_allow_rule_wins_witness :
    lastAllowMatch [matchNoneRule] ("p") ("u") []
      = checkPodPermissionRule (List.getLast [matchNoneRule] (by simp)) ("p") ("u") [] :=
  last_allow_rule_wins.1 [matchNoneRule] ("p") ("u") [] (by simp)

/-- Claim C7: at compile time an absent pods or refs key defaults to the
single pattern compiled from the match-all expression while an explicitly
empty list stays empty, and a block with no allow section is compiled with
a synthetic sole allow rule whose pod and ref patterns are both compiled
from the match-all expression. -/
theorem compile_defaults (re : String → Pattern) :
    (∀ rule : RawPodRule, rule.pods = none → (loadPodRule re rule).pods = [re (".*")])
    ∧ (∀ rule : RawPodRule, rule.refs = none → (loadPodRule re rule).refs = [re (".*")])
    ∧ (∀ rule : RawPodRule, rule.pods = some [] → (loadPodRule re rule).pods = [])
    ∧ (∀ rule : RawPodRule, rule.refs = some [] → (loadPodRule re rule).refs = [])
    ∧ (∀ ns : RawPodBlock, ns.allow = none →
        loadPodPermissionsBlock re ns
          = { «namespace» := ns.«namespace»
              allow := some [{ pods := [re (".*")], refs := [re (".*")] }]
              except := none, deny := none, «unless» := none }) := by
  refine ⟨?_, ?_, ?_, ?_, ?_⟩ <;> intro x hx <;>
    simp [loadPodRule, loadPodPermissionsBlock, hx]

/-- Witness for C7: the defaults at a concrete raw rule and block. -/
theorem compile_defaults_witness :
    (loadPodRule reAll { pods := none, refs := some [] }).pods = [reAll (".*")]
    ∧ (loadPodRule reAll { pods := none, refs := some [] }).refs = []
    ∧ loadPodPermissionsBlock reAll { «namespace» := "ns" }
        = { «namespace» := "ns"
            allow := some [{ pods := [reAll (".*")], refs := [reAll (".*")] }]
            except := none, deny := none, «unless» := none } :=
  ⟨(compile_defaults reAll).1 _ rfl, (compile_defaults reAll).2.2.2.1 _ rfl,
   (compile_defaults reAll).2.2.2.2 _ rfl⟩

/-- Claim C9: when the permission set of the scope contains no block whose
namespace equals the namespace of the pod, every user that passed the namespace
gate is granted without consulting the evaluator. -/
theorem unrestricted_namespace_grants (cd : KubelogClusterData) (scope : KWIRTH_SCOPE)
    (ps : List KubelogPodPermissions) (podNs ent userRef : String) (gs : List String)
    (hps : getPodPermissionSet scope cd = some ps)
    (hnone : ∀ pp ∈ ps, pp.«namespace» ≠ podNs)
    (hgate : checkNamespaceAccess (some cd.namespacePermissions) podNs userRef gs = true) :
    addAccessKeyDecision cd scope podNs ent userRef gs = true := by
  have hres : ps.any (fun pp => pp.«namespace» == podNs) = false := by
    simp only [List.any_eq_false]
    intro pp hpp
    simpa using hnone pp hpp
  simp [addAccessKeyDecision, hgate, hps, hres]

/-- Witness for C9: a cluster with an empty view permission set grants a
concrete user for a concrete pod. -/
theorem unrestricted_namespace_grants_witness :
    addAccessKeyDecision oldClusterData KWIRTH_SCOPE.view ("ns") ("p") ("user:default/a")
      ["group:default/b"] = true :=
  unrestricted_namespace_grants oldClusterData KWIRTH_SCOPE.view [] ("ns") ("p")
    ("user:default/a") ["group:default/b"] rfl (by intro pp hpp; cases hpp) (by decide)

/-- Claim C10: both evaluators depend on the user ref only through its
lower-casing, group entries are used verbatim (case-sensitively at the pod
tier), and a group entry containing an ASCII uppercase letter never equals
a loaded identity ref (lower-cased at load) at the namespace gate. -/
theorem only_user_ref_lowercased :
    (∀ (ppr : PodPermissionRule) (ent u u' : String) (gs : List String),
        toLowerStr u = toLowerStr u' →
        checkPodPermissionRule ppr ent u gs = checkPodPermissionRule ppr ent u' gs)
    ∧ (∀ (perms : List NamespacePermission) (ns u u' : String) (gs : List String),
        toLowerStr u = toLowerStr u' →
        checkNamespaceAccess (some perms) ns u gs = checkNamespaceAccess (some perms) ns u' gs)
    ∧ (∀ (cfg : List RawNamespacePermission) (rule : NamespacePermission),
        rule ∈ loadNamespacePermissions (some cfg) →
        ∀ (g : String) (c : Char), c ∈ g.data → 65 ≤ c.toNat → c.toNat ≤ 90 →
          g ∉ rule.identityRefs)
    ∧ (checkPodPermissionRule adminGroupRule ("p") ("x:y/z") ["Group:default/admin"] = false
        ∧ checkPodPermissionRule adminGroupRule ("p") ("x:y/z") ["group:default/admin"] = true
        ∧ checkPodPermissionRule adminGroupRule ("p") ("GROUP:DEFAULT/ADMIN") [] = true) := by
  refine ⟨?_, ?_, ?_, by decide, by decide, by decide⟩
  · intro ppr ent u u' gs h
    rw [checkPodPermissionRule_eq, checkPodPermissionRule_eq, h]
  · intro perms ns u u' gs h
    unfold checkNamespaceAccess
    rw [h]
  · intro cfg rule hrule g c hc h65 h90 hmem
    simp only [loadNamespacePermissions, List.mem_map] at hrule
    obtain ⟨nsp, _, hns⟩ := hrule
    rw [← hns] at hmem
    simp only [List.mem_map] at hmem
    obtain ⟨src, _, hsrc⟩ := hmem
    exact upper_ne_toLowerStr g c hc h65 h90 src hsrc.symm

/-- Witness for C10: lower-case invariance of the rule matcher at a concrete
mixed-case user ref. -/
theorem only_user_ref_lowercased_witness :
    checkPodPermissionRule adminGroupRule ("p") ("User:Default/Admin") []
      = checkPodPermissionRule adminGroupRule ("p") ("user:default/admin") [] :=
  only_user_ref_lowercased.1 adminGroupRule ("p") ("User:Default/Admin")
    ("user:default/admin") [] (by decide)

/-- Counterexample to C8 as stated: reloading the registry holding `old`
with a config whose second cluster is malformed makes the load fail, yet
the registry afterwards holds `new` (the successfully processed first
cluster), not its pre-reload contents. -/
theorem reload_not_atomic_counterexample :
    (loadClusters reAll cfgBad regOld).2 = true
    ∧ (reloadOnChange reAll cfgBad regOld).map Prod.fst = ["new"]
    ∧ regOld.map Prod.fst = ["old"]
    ∧ reloadOnChange reAll cfgBad regOld ≠ regOld := by
  refine ⟨rfl, rfl, rfl, ?_⟩
  intro h
  have h2 : (reloadOnChange reAll cfgBad regOld).map Prod.fst = regOld.map Prod.fst := by
    rw [h]
  rw [show (reloadOnChange reAll cfgBad regOld).map Prod.fst = ["new"] from rfl] at h2
  rw [show regOld.map Prod.fst = ["old"] from rfl] at h2
  exact absurd h2 (by decide)

/-- Amended C8: a reload is clear-then-rebuild, not replace-or-keep — its
outcome never depends on the previous registry contents, and a failure
while processing a cluster list leaves exactly the clusters already
processed before the failing entry. -/
theorem reload_clear_then_rebuild :
    (∀ (re : String → Pattern) (cfg : RawRootConfig) (reg reg' : Registry),
        loadClusters re cfg reg = loadClusters re cfg reg')
    ∧ (∀ (re : String → Pattern) (pre : List RawCluster) (bad : RawCluster)
        (rest : List RawCluster) (reg : Registry),
        bad.name = none → (∀ c ∈ pre, (c.name).isSome = true) →
        loadClustersList re (pre ++ bad :: rest) reg
          = ((loadClustersList re pre reg).1, true)) := by
  constructor
  · intro re cfg reg reg'
    rfl
  · intro re pre bad rest reg hbad
    induction pre generalizing reg with
    | nil =>
      intro _
      simp [loadClustersList, hbad]
    | cons c cs ih =>
      intro hpre
      have hc := hpre c (by simp)
      rcases hname : c.name with _ | nm
      · rw [hname] at hc
        cases hc
      · by_cases hcond : ((c.kwirthHome.isSome || c.kubelogKwirthHome.isSome)
            && (c.kwirthApiKey.isSome || c.kubelogKwirthApiKey.isSome)) = true
        · simp only [List.cons_append, loadClustersList, hname]
          rw [if_pos hcond, if_pos hcond]
          exact ih _ (fun c' hc' => hpre c' (List.mem_cons_of_mem _ hc'))
        · simp only [List.cons_append, loadClustersList, hname]
          rw [if_neg hcond, if_neg hcond]
          exact ih _ (fun c' hc' => hpre c' (List.mem_cons_of_mem _ hc'))

/-- Witness for the amended C8: the prefix characterisation at the concrete
failing config. -/
theorem reload_clear_then_rebuild_witness :
    loadClustersList reAll ([rawClusterNew] ++ rawClusterBad :: []) regOld
      = ((loadClustersList reAll [rawClusterNew] regOld).1, true) :=
  reload_clear_then_rebuild.2 reAll [rawClusterNew] rawClusterBad [] regOld rfl
    (by intro c hc
        simp only [List.mem_singleton] at hc
        subst hc
        rfl)

end Kubelog
